import Mathlib

/-!
Shallow embedding of `src/streamlit_app.py`, a Streamlit GDP dashboard.

Modelling conventions:
* A row of the wide GDP CSV is a country code together with a total map from
  year-column labels (natural numbers) to optional GDP cells; a `none` cell
  models an empty CSV cell, which pandas reads as NaN.  The map being total
  on `Nat` lets the table contain year columns outside the selected range.
* `pandas.DataFrame.melt` stacks the selected value columns one after the
  other: the output lists every source row for the first value column, then
  every source row for the second, and so on.  `pandasMelt` reproduces this.
* Python floats that may be NaN are modelled by `FVal`: either `nan` or a
  finite rational.  The unguarded float division `last_gdp / first_gdp` is
  made explicit in the embedding: a zero divisor lands in an error branch
  (`none`) instead of silently producing an IEEE infinity.
* File reads are modelled by passing the file system as an explicit partial
  map from paths to contents.
-/

/-- One row of the wide GDP CSV: its `Country Code` plus, for every year
column label, the optional GDP cell of that row (`none` = empty cell / NaN). -/
structure WideRow where
  code : String
  cell : Nat → Option ℚ

/-- One row of the long (melted) GDP table produced by `get_gdp_data`. -/
structure LongRecord where
  code : String
  year : Nat
  gdp : Option ℚ
  deriving DecidableEq

def MIN_YEAR : Nat := 1960

def MAX_YEAR : Nat := 2022

/-- The year-column labels selected by `get_gdp_data`:
`[str(x) for x in range(MIN_YEAR, MAX_YEAR + 1)]` (already parsed to numbers,
mirroring the later `pd.to_numeric`). -/
def yearRange : List Nat := List.range' MIN_YEAR (MAX_YEAR + 1 - MIN_YEAR)

/-- The long record that `melt` produces from wide row `r` and year column `y`. -/
def meltRecord (y : Nat) (r : WideRow) : LongRecord :=
  ⟨r.code, y, r.cell y⟩

/-- `raw_gdp_df.melt(['Country Code'], value_vars, 'Year', 'GDP')`.
pandas emits the blocks value-column-major: all rows for the first value
column, then all rows for the second, and so on. -/
def pandasMelt (value_vars : List Nat) (rows : List WideRow) : List LongRecord :=
  (value_vars.map (fun y => rows.map (meltRecord y))).flatten

/-- `get_gdp_data` of `src/streamlit_app.py`, with the CSV already parsed into
wide rows: melt the fixed 1960..2022 year columns into long records. -/
def get_gdp_data (raw_gdp_df : List WideRow) : List LongRecord :=
  pandasMelt yearRange raw_gdp_df

/-- A Python float as the dashboard sees it: NaN or a finite value. -/
inductive FVal where
  | nan : FVal
  | finite (q : ℚ) : FVal
  deriving DecidableEq

/-- Float division by a positive constant, as in the `/ 1_000_000_000` scaling. -/
def FVal.divConst : FVal → ℚ → FVal
  | .nan, _ => .nan
  | .finite q, c => .finite (q / c)

/-- `math.isnan`. -/
def FVal.isNan : FVal → Bool
  | .nan => true
  | .finite _ => false

/-- A pandas cell read back as a float: empty cells are NaN. -/
def fvalOfCell : Option ℚ → FVal
  | none => .nan
  | some q => .finite q

/-- Floor of a rational, computed from its reduced fraction. -/
def ratFloor (q : ℚ) : Int := Int.fdiv q.num (q.den : Int)

/-- Round to an integer, ties to even: the rounding CPython `format` applies. -/
def roundHalfEven (q : ℚ) : Int :=
  let fl := ratFloor q
  let frac := q - (fl : ℚ)
  if frac < 1 / 2 then fl
  else if 1 / 2 < frac then fl + 1
  else if fl % 2 = 0 then fl else fl + 1

/-- Insert a comma after every three digits of a reversed digit string. -/
def commaEvery3Rev : List Char → List Char
  | a :: b :: c :: d :: rest => a :: b :: c :: ',' :: commaEvery3Rev (d :: rest)
  | l => l

/-- Thousands-separate a digit string, e.g. `1234567` to `1,234,567`. -/
def thousandsSep (digits : List Char) : List Char :=
  (commaEvery3Rev digits.reverse).reverse

/-- CPython `format(x, ',.df')` on an exact value: round half-to-even at `d`
decimal places, thousands-separate the integer part, zero-pad the fractional
part to `d` digits.  (A value rounding to negative zero renders as `0`.) -/
def formatComma (q : ℚ) (d : Nat) : String :=
  let n := roundHalfEven (q * (10 : ℚ) ^ d)
  let m := n.natAbs
  let sign := if n < 0 then "-" else ""
  let intDigits := Nat.toDigits 10 (m / 10 ^ d)
  let fracDigits := Nat.toDigits 10 (m % 10 ^ d)
  let fracPadded := List.replicate (d - fracDigits.length) '0' ++ fracDigits
  if d = 0 then sign ++ String.mk (thousandsSep intDigits)
  else sign ++ String.mk (thousandsSep intDigits) ++ "." ++ String.mk fracPadded

/-- `format` applied to a possibly-NaN float: CPython renders NaN as `nan`. -/
def FVal.format : FVal → Nat → String
  | .nan, _ => "nan"
  | .finite q, d => formatComma q d

/-- The `delta_color` argument of `st.metric`. -/
inductive DeltaColor where
  | normal : DeltaColor
  | off : DeltaColor
  deriving DecidableEq

/-- The `(value, delta, delta_color)` triple handed to `st.metric`. -/
structure Metric where
  value : String
  delta : String
  delta_color : DeltaColor
  deriving DecidableEq

/-- The per-country metric computation of `render_gdp_dashboard` (source
lines 153-180).  A `none` input models an empty lookup series (`.empty`).
The result is `none` exactly when the source would evaluate the unguarded
float division `last_gdp / first_gdp` with a zero divisor: the embedding
keeps that error branch explicit instead of minting an IEEE infinity. -/
def compute_growth (first_gdp_series last_gdp_series : Option FVal) : Option Metric :=
  match first_gdp_series, last_gdp_series with
  | some fv, some lv =>
    let first_gdp := fv.divConst 1000000000
    let last_gdp := lv.divConst 1000000000
    match first_gdp, last_gdp with
    | FVal.finite f, FVal.finite l =>
      if f = 0 then none
      else some ⟨(FVal.finite l).format 0 ++ "B",
        formatComma (l / f) 2 ++ "x", DeltaColor.normal⟩
    | _, _ =>
      some ⟨last_gdp.format 0 ++ "B", "n/a", DeltaColor.off⟩
  | _, _ => some ⟨"Data unavailable", "n/a", DeltaColor.off⟩

/-- The year/country filter building `filtered_gdp_df` (source lines 120-124). -/
def filtered_gdp_df (gdp_df : List LongRecord) (selected_countries : List String)
    (from_year to_year : Nat) : List LongRecord :=
  gdp_df.filter (fun r =>
    selected_countries.contains r.code
      && decide (r.year ≤ to_year) && decide (from_year ≤ r.year))

/-- `gdp_df[gdp_df['Year'] == y]`: the year slice (source lines 140-141). -/
def year_slice (gdp_df : List LongRecord) (y : Nat) : List LongRecord :=
  gdp_df.filter (fun r => r.year == y)

/-- `slice[slice['Country Code'] == country]['GDP']` followed by the `.empty`
check and the `.iat[0]` access: the first matching GDP cell, if any. -/
def series_head (slice : List LongRecord) (country : String) : Option FVal :=
  ((slice.filter (fun r => r.code == country)).head?).map (fun r => fvalOfCell r.gdp)

/-- The whole metric pipeline for one country (source lines 140-180). -/
def country_metric (gdp_df : List LongRecord) (from_year to_year : Nat)
    (country : String) : Option Metric :=
  compute_growth (series_head (year_slice gdp_df from_year) country)
    (series_head (year_slice gdp_df to_year) country)

/-- Errors of the schedule loader. -/
inductive LoadErr where
  | NotFoundError : LoadErr
  deriving DecidableEq

/-- `get_schedule_html` (source lines 64-69): `Path.read_text` against an
explicit file system, a partial map from paths to UTF-8 contents.  A missing
file raises `FileNotFoundError`; an existing file is returned verbatim. -/
def get_schedule_html (fs : String → Option String) (schedule_path : String) :
    Except LoadErr String :=
  match fs schedule_path with
  | none => Except.error LoadErr.NotFoundError
  | some text => Except.ok text

/-- The alphabet used by `base64.b64encode`. -/
def b64Alphabet : List Char :=
  "ABCDEFGHIJKLMNOPQRSTUVWXYZabcdefghijklmnopqrstuvwxyz0123456789+/".toList

def b64Char (n : Nat) : Char := b64Alphabet.getD n 'A'

def b64Val (c : Char) : Option Nat := b64Alphabet.indexOf? c

/-- `base64.b64encode` on a byte list (bytes are naturals below 256). -/
def base64Encode : List Nat → List Char
  | [] => []
  | [a] => [b64Char (a / 4), b64Char (a % 4 * 16), '=', '=']
  | [a, b] => [b64Char (a / 4), b64Char (a % 4 * 16 + b / 16), b64Char (b % 16 * 4), '=']
  | a :: b :: c :: rest =>
    b64Char (a / 4) :: b64Char (a % 4 * 16 + b / 16) :: b64Char (b % 16 * 4 + c / 64)
      :: b64Char (c % 64) :: base64Encode rest

/-- Strict base64 decoding, the inverse of `base64Encode`. -/
def base64Decode : List Char → Option (List Nat)
  | [] => some []
  | c1 :: c2 :: c3 :: c4 :: rest =>
    match b64Val c1, b64Val c2 with
    | some v1, some v2 =>
      if c3 = '=' then
        if c4 = '=' ∧ rest = [] then some [v1 * 4 + v2 / 16] else none
      else
        match b64Val c3 with
        | some v3 =>
          if c4 = '=' then
            if rest = [] then some [v1 * 4 + v2 / 16, v2 % 16 * 16 + v3 / 4] else none
          else
            match b64Val c4 with
            | some v4 =>
              match base64Decode rest with
              | some bs => some ((v1 * 4 + v2 / 16) :: (v2 % 16 * 16 + v3 / 4)
                  :: (v3 % 4 * 64 + v4) :: bs)
              | none => none
            | none => none
        | none => none
    | none, _ | _, none => none
  | _ => none

/-- The fixed scheme written by `_build_preview_data_url`. -/
def dataUrlScheme : List Char := "data:text/html;base64,".toList

/-- `_build_preview_data_url` (source lines 72-76), acting on the UTF-8 bytes
of the input text; total by construction. -/
def build_preview_data_url (html_utf8 : List Nat) : List Char :=
  dataUrlScheme ++ base64Encode html_utf8

/-- A concrete two-country wide table used to exhibit melt's output order. -/
def rowAAA : WideRow := ⟨"AAA", fun y => if y = 1960 then some 5 else none⟩

def rowBBB : WideRow := ⟨"BBB", fun _ => none⟩

def twoCountryTable : List WideRow := [rowAAA, rowBBB]

theorem pandasMelt_nil (rows : List WideRow) : pandasMelt [] rows = [] := rfl

theorem pandasMelt_cons (y : Nat) (ys : List Nat) (rows : List WideRow) :
    pandasMelt (y :: ys) rows = rows.map (meltRecord y) ++ pandasMelt ys rows := rfl

theorem pandasMelt_length (ys : List Nat) (rows : List WideRow) :
    (pandasMelt ys rows).length = ys.length * rows.length := by
  induction ys with
  | nil => simp [pandasMelt_nil]
  | cons y ys ih =>
    rw [pandasMelt_cons]
    simp only [List.length_append, List.length_map, ih, List.length_cons]
    ring

theorem pandasMelt_countP (p : LongRecord → Bool) (ys : List Nat) (rows : List WideRow) :
    (pandasMelt ys rows).countP p
      = (ys.map (fun y => rows.countP (fun r => p (meltRecord y r)))).sum := by
  induction ys with
  | nil => simp [pandasMelt_nil]
  | cons y ys ih =>
    rw [pandasMelt_cons]
    simp only [List.countP_append, List.countP_map, List.map_cons, List.sum_cons, ih]
    rfl

theorem mem_pandasMelt {rec : LongRecord} {ys : List Nat} {rows : List WideRow} :
    rec ∈ pandasMelt ys rows ↔ ∃ y ∈ ys, ∃ r ∈ rows, rec = meltRecord y r := by
  simp only [pandasMelt, List.mem_flatten, List.mem_map]
  constructor
  · rintro ⟨l, ⟨y, hy, rfl⟩, hrec⟩
    rcases List.mem_map.mp hrec with ⟨r, hr, rfl⟩
    exact ⟨y, hy, r, hr, rfl⟩
  · rintro ⟨y, hy, r, hr, rfl⟩
    exact ⟨rows.map (meltRecord y), ⟨y, hy, rfl⟩, List.mem_map.mpr ⟨r, hr, rfl⟩⟩

theorem pandasMelt_getElem (ys : List Nat) (rows : List WideRow)
    (i j : Nat) (hi : i < ys.length) (hj : j < rows.length) :
    (pandasMelt ys rows)[i * rows.length + j]?
      = some (meltRecord (ys.get ⟨i, hi⟩) (rows.get ⟨j, hj⟩)) := by
  induction ys generalizing i with
  | nil => simp at hi
  | cons y ys ih =>
    rw [pandasMelt_cons]
    cases i with
    | zero =>
      rw [Nat.zero_mul, Nat.zero_add,
        List.getElem?_append_left (by simpa using hj),
        List.getElem?_map, List.getElem?_eq_getElem hj]
      rfl
    | succ i =>
      have hlen : (rows.map (meltRecord y)).length ≤ (i + 1) * rows.length + j := by
        simp only [List.length_map]
        calc rows.length ≤ (i + 1) * rows.length := Nat.le_mul_of_pos_left _ (Nat.succ_pos i)
        _ ≤ (i + 1) * rows.length + j := Nat.le_add_right _ _
      rw [List.getElem?_append_right hlen]
      have harith : (i + 1) * rows.length + j - (rows.map (meltRecord y)).length
          = i * rows.length + j := by
        simp only [List.length_map]
        calc (i + 1) * rows.length + j - rows.length
              = i * rows.length + rows.length + j - rows.length := by ring_nf
          _ = i * rows.length + j := by omega
      rw [harith, ih i (by simpa using hi)]
      rfl

theorem countP_code_eq_one {c : String} :
    ∀ {rows : List WideRow}, (rows.map WideRow.code).Nodup →
      c ∈ rows.map WideRow.code → rows.countP (fun r => r.code == c) = 1 := by
  intro rows
  induction rows with
  | nil => intro _ hc; simp at hc
  | cons r rs ih =>
    intro hnd hc
    simp only [List.map_cons, List.nodup_cons] at hnd
    rw [List.countP_cons]
    rcases List.mem_cons.mp hc with hceq | hctail
    · have hzero : rs.countP (fun s => s.code == c) = 0 := by
        apply List.countP_eq_zero.mpr
        intro s hs hsc
        rw [beq_iff_eq] at hsc
        have hmem : s.code ∈ rs.map WideRow.code := List.mem_map_of_mem WideRow.code hs
        rw [hsc, hceq] at hmem
        exact hnd.1 hmem
      have hr : (r.code == c) = true := by rw [beq_iff_eq, hceq]
      rw [hzero, hr]
      simp
    · have hne : (r.code == c) = false := by
        rw [beq_eq_false_iff_ne]
        intro h
        rw [← h] at hctail
        exact hnd.1 hctail
      rw [ih hnd.2 hctail, hne]
      simp

theorem sum_countP_boundary {c : String} {y : Nat} {rows : List WideRow}
    (h1 : rows.countP (fun r => r.code == c) = 1) :
    ∀ {ys : List Nat}, ys.Nodup → y ∈ ys →
      (ys.map (fun z => rows.countP (fun r => r.code == c && z == y))).sum = 1 := by
  intro ys
  induction ys with
  | nil => intro _ hy; simp at hy
  | cons z zs ih =>
    intro hnd hy
    simp only [List.map_cons, List.sum_cons]
    simp only [List.nodup_cons] at hnd
    rcases List.mem_cons.mp hy with hyz | hytail
    · have hterm : rows.countP (fun r => r.code == c && z == y) = 1 := by
        rw [← h1]
        have hfun : (fun r : WideRow => r.code == c && z == y)
            = (fun r : WideRow => r.code == c) := by
          funext r
          rw [hyz, beq_self_eq_true, Bool.and_true]
        rw [hfun]
      have htail : (zs.map (fun z' => rows.countP (fun r => r.code == c && z' == y))).sum = 0 := by
        apply List.sum_eq_zero
        intro x hx
        rcases List.mem_map.mp hx with ⟨z', hz', rfl⟩
        apply List.countP_eq_zero.mpr
        intro r _
        have hzy : (z' == y) = false := by
          rw [beq_eq_false_iff_ne]
          intro hEq
          rw [hEq, hyz] at hz'
          exact hnd.1 hz'
        simp [hzy]
      rw [hterm, htail]
    · have hzy : (z == y) = false := by
        rw [beq_eq_false_iff_ne]
        intro hEq
        rw [← hEq] at hytail
        exact hnd.1 hytail
      have hterm : rows.countP (fun r => r.code == c && z == y) = 0 := by
        apply List.countP_eq_zero.mpr
        intro r _
        simp [hzy]
      rw [hterm, ih hnd.2 hytail]

/-- C1: for every wide GDP table whose rows carry pairwise distinct country
codes (the data-model invariant: one row per country), melting the fixed year
columns 1960..2022 produces exactly N*63 long records; every (Country Code,
Year) pair of the input appears exactly once; no emitted year lies outside
[1960, 2022]; and no input row is dropped, missing cells included. -/
theorem get_gdp_data_shape (rows : List WideRow)
    (hnd : (rows.map WideRow.code).Nodup) :
    (get_gdp_data rows).length = rows.length * 63
    ∧ (∀ c ∈ rows.map WideRow.code, ∀ y ∈ yearRange,
        (get_gdp_data rows).countP (fun rec => rec.code == c && rec.year == y) = 1)
    ∧ (∀ rec ∈ get_gdp_data rows, MIN_YEAR ≤ rec.year ∧ rec.year ≤ MAX_YEAR)
    ∧ (∀ r ∈ rows, ∀ y ∈ yearRange, meltRecord y r ∈ get_gdp_data rows) := by
  have hylen : yearRange.length = 63 := by
    simp [yearRange, MIN_YEAR, MAX_YEAR]
  have hynd : yearRange.Nodup := by
    rw [yearRange]
    exact List.nodup_range' _ _
  refine ⟨?_, ?_, ?_, ?_⟩
  · rw [get_gdp_data, pandasMelt_length, hylen, Nat.mul_comm]
  · intro c hc y hy
    rw [get_gdp_data, pandasMelt_countP]
    exact sum_countP_boundary (countP_code_eq_one hnd hc) hynd hy
  · intro rec hrec
    rcases mem_pandasMelt.mp hrec with ⟨y, hy, r, hr, rfl⟩
    have hmem := List.mem_range'_1.mp (by simpa [yearRange] using hy)
    simp only [meltRecord, MIN_YEAR, MAX_YEAR] at hmem ⊢
    omega
  · intro r hr y hy
    exact mem_pandasMelt.mpr ⟨y, hy, r, hr, rfl⟩

/-- Witness for C1 at a concrete two-row table: 126 records, and the pair
(AAA, 1970) appears exactly once. -/
theorem get_gdp_data_shape_witness :
    (get_gdp_data twoCountryTable).length = 2 * 63
    ∧ (get_gdp_data twoCountryTable).countP
        (fun rec => rec.code == "AAA" && rec.year == 1970) = 1 := by
  have h := get_gdp_data_shape twoCountryTable (by decide)
  exact ⟨h.1, h.2.1 "AAA" (by decide) 1970 (by decide)⟩

set_option maxRecDepth 4000 in
/-- C2 counterexample: melting a concrete two-row table puts a record of the
second source row (BBB) at index 1, before the first row's 1961 record at
index 2 — the output is not ordered source row-major. -/
theorem melt_not_row_major :
    twoCountryTable.map WideRow.code = ["AAA", "BBB"]
    ∧ ((get_gdp_data twoCountryTable)[1]?).map LongRecord.code = some "BBB"
    ∧ ((get_gdp_data twoCountryTable)[2]?).map LongRecord.code = some "AAA" := by
  refine ⟨rfl, ?_, ?_⟩ <;> decide

/-- C2 (amended): the melted output is ordered year-major in the fixed
ascending year order 1960..2022, preserving source row order inside each
year block: the record at position i*N + j is source row j's record for
year 1960+i. -/
theorem get_gdp_data_order (rows : List WideRow) (i j : Nat)
    (hi : i < 63) (hj : j < rows.length) :
    (get_gdp_data rows)[i * rows.length + j]?
      = some (meltRecord (MIN_YEAR + i) (rows.get ⟨j, hj⟩)) := by
  have hi' : i < yearRange.length := by
    simpa [yearRange, MIN_YEAR, MAX_YEAR] using hi
  rw [get_gdp_data, pandasMelt_getElem yearRange rows i j hi' hj]
  have hy : yearRange.get ⟨i, hi'⟩ = MIN_YEAR + i := by
    simp [yearRange, List.get_eq_getElem, List.getElem_range']
  rw [hy]

/-- Witness for the amended C2 at block i = 1, row j = 0 of the two-row
table: position 1*2+0 holds row AAA's record for 1961. -/
theorem get_gdp_data_order_witness :
    (get_gdp_data twoCountryTable)[1 * 2 + 0]? = some (meltRecord 1961 rowAAA) := by
  exact get_gdp_data_order twoCountryTable 1 0 (by norm_num) (by decide)

/-- C3: if either boundary lookup found no record (absent input), the metric
is exactly ("Data unavailable", "n/a", off), regardless of the other input. -/
theorem compute_growth_absent (x : Option FVal) :
    compute_growth none x = some ⟨"Data unavailable", "n/a", DeltaColor.off⟩
    ∧ compute_growth x none = some ⟨"Data unavailable", "n/a", DeltaColor.off⟩ := by
  constructor
  · cases x <;> rfl
  · cases x <;> rfl

/-- C4: for present inputs, if either value scaled by 1e9 is NaN the growth is
"n/a" and the color off, while the displayed value is still the last scaled
value, formatted (CPython renders a NaN value as `nan`). -/
theorem compute_growth_nan (a b : FVal)
    (h : (a.divConst 1000000000).isNan = true ∨ (b.divConst 1000000000).isNan = true) :
    compute_growth (some a) (some b)
      = some ⟨(b.divConst 1000000000).format 0 ++ "B", "n/a", DeltaColor.off⟩ := by
  cases a with
  | nan => cases b <;> rfl
  | finite qa =>
    cases b with
    | nan => rfl
    | finite qb =>
      exfalso
      rcases h with h | h <;> simp [FVal.divConst, FVal.isNan] at h

/-- Witness for C4: compute_growth(NaN, 1_000_000_000) displays "1B" with
growth "n/a" and color off. -/
theorem compute_growth_nan_witness :
    compute_growth (some FVal.nan) (some (FVal.finite 1000000000))
      = some ⟨"1B", "n/a", DeltaColor.off⟩ := by
  have h := compute_growth_nan FVal.nan (FVal.finite 1000000000) (Or.inl rfl)
  rw [h]
  with_unfolding_all decide

/-- C5 counterexample: both inputs are present and both scaled values are
finite, yet with a zero first value the computation lands in the unguarded
zero-divisor error branch instead of producing a two-decimal quotient with
color normal. -/
theorem compute_growth_zero_first_cex :
    compute_growth (some (FVal.finite 0)) (some (FVal.finite 1000000000)) = none := by
  with_unfolding_all decide

/-- C5 (amended): for present inputs whose scaled values are both finite and
whose first value is nonzero, the metric displays the last scaled value with
thousands separators, zero decimals and a "B" suffix, the growth is the
quotient formatted to two decimals with an "x" suffix, and the color is
normal. -/
theorem compute_growth_finite (f l : ℚ) (h : f ≠ 0) :
    compute_growth (some (FVal.finite f)) (some (FVal.finite l))
      = some ⟨formatComma (l / 1000000000) 0 ++ "B",
          formatComma ((l / 1000000000) / (f / 1000000000)) 2 ++ "x",
          DeltaColor.normal⟩ := by
  have hf : (f / 1000000000 : ℚ) ≠ 0 := by
    simp [div_eq_zero_iff, h]
  simp [compute_growth, FVal.divConst, FVal.format, hf]

/-- Witness for the amended C5: compute_growth(1e9, 2e9) = ("2B", "2.00x",
normal), the spec's own example. -/
theorem compute_growth_finite_witness :
    compute_growth (some (FVal.finite 1000000000)) (some (FVal.finite 2000000000))
      = some ⟨"2B", "2.00x", DeltaColor.normal⟩ := by
  have h := compute_growth_finite 1000000000 2000000000 (by norm_num)
  rw [h]
  with_unfolding_all decide

/-- C6: the division last/first is unguarded against a zero first value:
a pair of present, non-NaN inputs with first value 0 reaches the embedded
guarded-division error branch (`none`), not a sentinel metric. -/
theorem compute_growth_division_unguarded :
    (FVal.finite 0).isNan = false
    ∧ ((FVal.finite 0).divConst 1000000000).isNan = false
    ∧ compute_growth (some (FVal.finite 0)) (some (FVal.finite 2000000000)) = none := by
  refine ⟨rfl, rfl, ?_⟩
  with_unfolding_all decide

theorem b64Val_b64Char : ∀ n : Nat, n < 64 → b64Val (b64Char n) = some n ∧ b64Char n ≠ '=' := by
  decide

theorem base64_decode_encode :
    ∀ l : List Nat, (∀ b ∈ l, b < 256) → base64Decode (base64Encode l) = some l := by
  intro l
  induction l using base64Encode.induct with
  | case1 => intro _; rfl
  | case2 a =>
    intro h
    have hb : a < 256 := h a (by simp)
    have h1 := b64Val_b64Char (a / 4) (by omega)
    have h2 := b64Val_b64Char (a % 4 * 16) (by omega)
    simp only [base64Encode, base64Decode, h1.1, h2.1]
    simp
    all_goals omega
  | case3 a b =>
    intro h
    have ha : a < 256 := h a (by simp)
    have hb : b < 256 := h b (by simp)
    have h1 := b64Val_b64Char (a / 4) (by omega)
    have h2 := b64Val_b64Char (a % 4 * 16 + b / 16) (by omega)
    have h3 := b64Val_b64Char (b % 16 * 4) (by omega)
    simp only [base64Encode, base64Decode, h1.1, h2.1, h3.1, if_neg h3.2]
    simp
    all_goals omega
  | case4 a b c rest ih =>
    intro h
    have ha : a < 256 := h a (by simp)
    have hb : b < 256 := h b (by simp)
    have hc : c < 256 := h c (by simp)
    have hrest : ∀ x ∈ rest, x < 256 := by
      intro x hx
      exact h x (by simp [hx])
    have h1 := b64Val_b64Char (a / 4) (by omega)
    have h2 := b64Val_b64Char (a % 4 * 16 + b / 16) (by omega)
    have h3 := b64Val_b64Char (b % 16 * 4 + c / 64) (by omega)
    have h4 := b64Val_b64Char (c % 64) (by omega)
    simp only [base64Encode, base64Decode, h1.1, h2.1, h3.1, h4.1,
      if_neg h3.2, if_neg h4.2, ih hrest]
    simp
    all_goals omega

/-- C7: `_build_preview_data_url` is total on byte sequences of valid UTF-8
text, its result is exactly the fixed scheme followed by a base64 payload,
and decoding that payload yields back exactly the input bytes. -/
theorem build_preview_data_url_roundtrip (text_utf8 : List Nat)
    (h : ∀ b ∈ text_utf8, b < 256) :
    (build_preview_data_url text_utf8).take 22 = dataUrlScheme
    ∧ (build_preview_data_url text_utf8).drop 22 = base64Encode text_utf8
    ∧ base64Decode ((build_preview_data_url text_utf8).drop 22) = some text_utf8 := by
  have hlen : dataUrlScheme.length = 22 := rfl
  have htake : (build_preview_data_url text_utf8).take 22 = dataUrlScheme := by
    rw [build_preview_data_url, ← hlen, List.take_left]
  have hdrop : (build_preview_data_url text_utf8).drop 22 = base64Encode text_utf8 := by
    rw [build_preview_data_url, ← hlen, List.drop_left]
  exact ⟨htake, hdrop, by rw [hdrop]; exact base64_decode_encode text_utf8 h⟩

/-- Witness for C7 on the UTF-8 bytes of the text `hi`. -/
theorem build_preview_data_url_roundtrip_witness :
    (build_preview_data_url [104, 105]).take 22 = dataUrlScheme
    ∧ base64Decode ((build_preview_data_url [104, 105]).drop 22) = some [104, 105] := by
  have h := build_preview_data_url_roundtrip [104, 105] (by decide)
  exact ⟨h.1, h.2.2⟩

/-- C8: the schedule loader raises `NotFoundError` exactly when the path is
absent from the file system, and otherwise returns the file content verbatim. -/
theorem get_schedule_html_spec (fs : String → Option String) (schedule_path : String) :
    (fs schedule_path = none →
      get_schedule_html fs schedule_path = Except.error LoadErr.NotFoundError)
    ∧ (∀ content : String, fs schedule_path = some content →
      get_schedule_html fs schedule_path = Except.ok content) := by
  constructor
  · intro hmiss
    rw [get_schedule_html, hmiss]
  · intro content hhit
    rw [get_schedule_html, hhit]

/-- Witness for C8: a one-file file system, probed at the schedule path and
at a missing path. -/
theorem get_schedule_html_spec_witness :
    get_schedule_html
        (fun p => if p = "assets/leman_bicer_schedule.html" then some "<table></table>" else none)
        "assets/leman_bicer_schedule.html" = Except.ok "<table></table>"
    ∧ get_schedule_html
        (fun p => if p = "assets/leman_bicer_schedule.html" then some "<table></table>" else none)
        "assets/missing.html" = Except.error LoadErr.NotFoundError := by
  constructor
  · exact (get_schedule_html_spec _ "assets/leman_bicer_schedule.html").2 "<table></table>" (by decide)
  · exact (get_schedule_html_spec _ "assets/missing.html").1 (by decide)

/-- C9: the year/country filter returns exactly the records whose year lies
in the selected range and whose country code is among the selected ones:
sound (every returned record qualifies) and complete (no silent drops). -/
theorem filtered_gdp_df_mem (gdp_df : List LongRecord) (S : List String)
    (Y1 Y2 : Nat) (r : LongRecord) :
    r ∈ filtered_gdp_df gdp_df S Y1 Y2
      ↔ r ∈ gdp_df ∧ r.code ∈ S ∧ Y1 ≤ r.year ∧ r.year ≤ Y2 := by
  simp [filtered_gdp_df, List.mem_filter, and_assoc, and_comm, and_left_comm]

theorem series_head_year_comm (df : List LongRecord) (y : Nat) (c : String) :
    series_head (year_slice df y) c
      = ((df.filter (fun r => r.code == c)).filter (fun r => r.year == y)).head?.map
          (fun r => fvalOfCell r.gdp) := by
  rw [series_head, year_slice, List.filter_filter, List.filter_filter]
  have hcomm : (fun r : LongRecord => (r.code == c) && (r.year == y))
      = (fun r : LongRecord => (r.year == y) && (r.code == c)) := by
    funext r
    exact Bool.and_comm _ _
  rw [hcomm]

/-- C10: the metric triple of a country depends only on that country's own
records: two data sets agreeing on the country's records give identical
results, whatever the other countries' records are. -/
theorem country_metric_noninterference (df1 df2 : List LongRecord)
    (from_year to_year : Nat) (country : String)
    (h : df1.filter (fun r => r.code == country) = df2.filter (fun r => r.code == country)) :
    country_metric df1 from_year to_year country
      = country_metric df2 from_year to_year country := by
  have key : ∀ y : Nat, series_head (year_slice df1 y) country
      = series_head (year_slice df2 y) country := by
    intro y
    rw [series_head_year_comm, series_head_year_comm, h]
  rw [country_metric, country_metric, key from_year, key to_year]

/-- Witness for C10: removing the DEU record leaves FRA's metric unchanged. -/
theorem country_metric_noninterference_witness :
    country_metric [⟨"FRA", 1960, some 1⟩, ⟨"DEU", 1960, some 2⟩, ⟨"FRA", 2022, some 3⟩]
        1960 2022 "FRA"
      = country_metric [⟨"FRA", 1960, some 1⟩, ⟨"FRA", 2022, some 3⟩] 1960 2022 "FRA" := by
  exact country_metric_noninterference _ _ 1960 2022 "FRA" (by decide)
